import Mathlib

/-
  Verification development for the pgAdmin 4 schema utilities
  (web/pgadmin/browser/server_groups/servers/databases/schemas/utils.py).

  The Python code is shallowly embedded: strings are Lean `String`s
  manipulated through helpers that reproduce Python's `str` semantics,
  Python integers are `Int` with Python's floor shift / two's-complement
  masking made explicit, dictionaries keyed by server id or setting type
  are association lists, and code that can raise returns `Except`.
-/

set_option maxRecDepth 10000
set_option linter.unusedVariables false

namespace PgUtils

/-- Helper for Python `str.find`: index of the first occurrence of `sub`
starting the scan at accumulated index `i`. -/
def findAux (sub : List Char) : List Char → Nat → Option Nat
  | [], i => if sub.isPrefixOf ([] : List Char) then some i else none
  | c :: rest, i =>
    if sub.isPrefixOf (c :: rest) then some i else findAux sub rest (i + 1)

/-- Python `s.find(sub)`: smallest index at which `sub` occurs in `s`, else `-1`. -/
def pyFind (s sub : String) : Int :=
  match findAux sub.data s.data 0 with
  | some n => (n : Int)
  | none => -1

/-- Python `s.startswith(p)`. -/
def pyStartsWith (s p : String) : Bool := p.data.isPrefixOf s.data

/-- Python `s.endswith(p)`. -/
def pyEndsWith (s p : String) : Bool := p.data.isSuffixOf s.data

/-- Python `s[:n]` for a nonnegative index. -/
def pyTake (s : String) (n : Nat) : String := ⟨s.data.take n⟩

/-- Python `s[n:]` for a nonnegative index. -/
def pyDrop (s : String) (n : Nat) : String := ⟨s.data.drop n⟩

/-- Python `s[:i]` where `i` may be negative (counted from the end,
clamped at the left edge as Python does). -/
def pySliceTo (s : String) (i : Int) : String :=
  if 0 ≤ i then pyTake s i.toNat
  else pyTake s ((s.data.length : Int) + i).toNat

/-- Python `s[1:-1]`. -/
def pyInner (s : String) : String := ⟨(s.data.drop 1).dropLast⟩

/-- Python `s.rstrip(cs)`: remove every trailing character that belongs to `cs`. -/
def pyRstrip (s : String) (cs : List Char) : String :=
  ⟨(s.data.reverse.dropWhile fun c => cs.contains c).reverse⟩

/-- Python `s * n` (string repetition), used for the `'[]'` array suffix loop. -/
def pyRepeat (s : String) : Nat → String
  | 0 => ""
  | n + 1 => s ++ pyRepeat s n

/-- Python `s[i]` for a nonnegative index: the one-character string, or
`none` when the index is out of range (Python raises `IndexError`). -/
def pyCharAt (s : String) (i : Nat) : Option String :=
  (s.data.get? i).map fun c => ⟨[c]⟩

/-- Python `n >> k` on `int`: an arithmetic shift, i.e. floor division by `2 ^ k`. -/
def pyShr (n : Int) (k : Nat) : Int := Int.fdiv n (2 ^ k)

/-- Python `n & 0xffff` on `int`: two's-complement masking, i.e. the
nonnegative remainder of `n` modulo `2 ^ 16`. -/
def pyAndFFFF (n : Int) : Int := Int.emod n 65536

/-- Modelled from the spec: the constant `DATATYPE_TIME_WITH_TIMEZONE` of
`pgadmin.utils.constants` (that module is not under src/); the spec's
display forms for the time-zone variants fix its value. -/
def DATATYPE_TIME_WITH_TIMEZONE : String := "time with time zone"

/-- Modelled from the spec: the constant `DATATYPE_TIME_WITHOUT_TIMEZONE` of
`pgadmin.utils.constants` (not under src/). -/
def DATATYPE_TIME_WITHOUT_TIMEZONE : String := "time without time zone"

/-- Modelled from the spec: the constant `DATATYPE_TIMESTAMP_WITH_TIMEZONE` of
`pgadmin.utils.constants` (not under src/). -/
def DATATYPE_TIMESTAMP_WITH_TIMEZONE : String := "timestamp with time zone"

/-- Modelled from the spec: the constant `DATATYPE_TIMESTAMP_WITHOUT_TIMEZONE`
of `pgadmin.utils.constants` (not under src/). -/
def DATATYPE_TIMESTAMP_WITHOUT_TIMEZONE : String := "timestamp without time zone"

/-- Argument of `DataTypeReader.get_length_precision`: either a PostgreSQL
element OID (a Python `int`) or a type name (a Python `str`). -/
inductive ElemId
  | oid (n : Int)
  | name (s : String)
deriving DecidableEq

/-- Python truthiness of the `elemoid_or_name` argument
(`0` and the empty string are falsy). -/
def ElemId.truthy : ElemId → Bool
  | .oid n => decide (n ≠ 0)
  | .name s => decide (s ≠ "")

/-- The first membership tuple of `get_length_precision` (typeval `'L'`). -/
def lengthTypes : List ElemId :=
  [.oid 1560, .name "bit",
   .oid 1561, .name "bit[]",
   .oid 1562, .name "varbit", .name "bit varying",
   .oid 1563, .name "varbit[]", .name "bit varying[]",
   .oid 1042, .name "bpchar", .name "character",
   .oid 1043, .name "varchar", .name "character varying",
   .oid 1014, .name "bpchar[]", .name "character[]",
   .oid 1015, .name "varchar[]", .name "character varying[]"]

/-- The second membership tuple of `get_length_precision` (typeval `'D'`). -/
def dateTypes : List ElemId :=
  [.oid 1083, .name "time", .name DATATYPE_TIME_WITHOUT_TIMEZONE,
   .oid 1114, .name "timestamp", .name DATATYPE_TIMESTAMP_WITHOUT_TIMEZONE,
   .oid 1115, .name "timestamp[]", .name "timestamp without time zone[]",
   .oid 1183, .name "time[]", .name "time without time zone[]",
   .oid 1184, .name "timestamptz", .name DATATYPE_TIMESTAMP_WITH_TIMEZONE,
   .oid 1185, .name "timestamptz[]", .name "timestamp with time zone[]",
   .oid 1186, .name "interval",
   .oid 1187, .name "interval[]", .name "interval[]",
   .oid 1266, .name "timetz", .name DATATYPE_TIME_WITH_TIMEZONE,
   .oid 1270, .name "timetz", .name "time with time zone[]"]

/-- The third membership tuple of `get_length_precision` (typeval `'P'`). -/
def numericTypes : List ElemId :=
  [.oid 1231, .name "numeric[]",
   .oid 1700, .name "numeric"]

/-- Embeds `DataTypeReader.get_length_precision`.  Returns
`(length, precision, typeval)`; typeval is one of `""`, `"L"`, `"D"`,
`"P"`, `" "` exactly as in the source. -/
def get_length_precision (elemoid_or_name : ElemId) : Bool × Bool × String :=
  let typeval :=
    if elemoid_or_name.truthy then
      if elemoid_or_name ∈ lengthTypes then "L"
      else if elemoid_or_name ∈ dateTypes then "D"
      else if elemoid_or_name ∈ numericTypes then "P"
      else " "
    else ""
  let precision : Bool := typeval == "P"
  let length : Bool := precision || (typeval == "L" || typeval == "D")
  (length, precision, typeval)

/-- The name list of the time/bit branch of `DataTypeReader._check_typmod`. -/
def timeLengthNames : List String :=
  ["time", "timetz",
   DATATYPE_TIME_WITHOUT_TIMEZONE, DATATYPE_TIME_WITH_TIMEZONE,
   "timestamp", "timestamptz",
   DATATYPE_TIMESTAMP_WITHOUT_TIMEZONE, DATATYPE_TIMESTAMP_WITH_TIMEZONE,
   "bit", "bit varying", "varbit"]

/-- Embeds `DataTypeReader._check_typmod`.  In the numeric branch the
source guards the precision part with `if _prec is not None`, which is
always true for an `int`, so the precision part is appended
unconditionally here. -/
def check_typmod (typmod : Int) (name : String) : String :=
  let length : String :=
    if name = "numeric" then
      "(" ++ toString (pyShr (typmod - 4) 16) ++ "," ++ toString (pyAndFFFF (typmod - 4))
    else if name ∈ timeLengthNames then
      "(" ++ toString typmod
    else if name = "interval" then
      "(" ++ (if pyAndFFFF typmod > 6 then "" else toString (pyAndFFFF typmod))
    else if name = "date" then ""
    else "(" ++ toString (typmod - 4)
  if length ≠ "" then length ++ ")" else length

/-- Embeds `DataTypeReader._get_full_type_value`. -/
def get_full_type_value (name schema length array : String) : String :=
  if name = "char" ∧ schema = "pg_catalog" then "\"char\"" ++ array
  else if name = DATATYPE_TIME_WITH_TIMEZONE then
    "time" ++ length ++ " with time zone" ++ array
  else if name = DATATYPE_TIME_WITHOUT_TIMEZONE then
    "time" ++ length ++ " without time zone" ++ array
  else if name = DATATYPE_TIMESTAMP_WITH_TIMEZONE then
    "timestamp" ++ length ++ " with time zone" ++ array
  else if name = DATATYPE_TIMESTAMP_WITHOUT_TIMEZONE then
    "timestamp" ++ length ++ " without time zone" ++ array
  else name ++ length ++ array

/-- Embeds `DataTypeReader._check_schema_in_name`.  The source indexes a
single character (`typname[len(schema) + 3]` / `typname[len(schema) + 1]`,
with no slice colon), so the embedding returns that one-character string;
Python raises `IndexError` when the index is out of range, modelled as
`Except.error`. -/
def check_schema_in_name (typname schema : String) : Except String String :=
  if pyFind typname (schema ++ "\".") ≥ 0 then
    match pyCharAt typname (schema.data.length + 3) with
    | some c => .ok c
    | none => .error "IndexError: string index out of range"
  else if pyFind typname (schema ++ ".") ≥ 0 then
    match pyCharAt typname (schema.data.length + 1) with
    | some c => .ok c
    | none => .error "IndexError: string index out of range"
  else .ok typname

/-- Embeds `DataTypeReader.get_full_type` (the `is_dup` parameter is unused
by the source body and kept for signature fidelity). -/
def get_full_type (nsp : Option String) (typname : String) (is_dup : Bool)
    (numdims : Int) (typmod : Int) : Except String String :=
  let schema := nsp.getD ""
  match check_schema_in_name typname schema with
  | .error e => .error e
  | .ok n0 =>
    let p1 : String × Int :=
      if pyStartsWith n0 "_" then
        (pyDrop n0 1, if numdims = 0 then 1 else numdims)
      else (n0, numdims)
    let p2 : String × Int :=
      if pyEndsWith p1.1 "[]" then
        (pySliceTo p1.1 (-2), if p1.2 = 0 then 1 else p1.2)
      else p1
    let name :=
      if pyStartsWith p2.1 "\"" && pyEndsWith p2.1 "\"" then pyInner p2.1 else p2.1
    let array := if p2.2 > 0 then pyRepeat "[]" p2.2.toNat else ""
    let length := if typmod ≠ -1 then check_typmod typmod name else ""
    .ok (get_full_type_value name schema length array)

/-- Splits a maximal run of leading digit characters from a list
(the greedy regex fragment `\d+` of `parse_type_name`). -/
def takeDigits : List Char → List Char × List Char
  | [] => ([], [])
  | c :: rest =>
    if c.isDigit then
      let p := takeDigits rest
      (c :: p.1, p.2)
    else ([], c :: rest)

theorem takeDigits_snd_length (l : List Char) : (takeDigits l).2.length ≤ l.length := by
  induction l with
  | nil => simp [takeDigits]
  | cons c rest ih =>
    by_cases h : c.isDigit <;> simp [takeDigits, h] <;> omega

/-- Python `re.sub(r'(\(\d+\))', '', s)` as used by `parse_type_name`:
remove every substring of the form `(` digits `)`, scanning left to right. -/
def subDigitParens : List Char → List Char
  | [] => []
  | c :: rest =>
    if c = '(' then
      match h : takeDigits rest with
      | (_ :: _, ')' :: after) => subDigitParens after
      | _ => c :: subDigitParens rest
    else c :: subDigitParens rest
termination_by l => l.length
decreasing_by
  · have hlen := takeDigits_snd_length rest
    rw [h] at hlen
    simp at hlen ⊢
    omega
  all_goals simp

/-- Embeds `DataTypeReader.parse_type_name`.  Python truthiness of
`idx = type_name.find('(')` means the first two branches require
`idx ≠ 0` (so `-1`, i.e. not found, is truthy); the time branch compares
the index of `')'` with `1` exactly as the source does. -/
def parse_type_name (type_name : String) : String :=
  let is_array := pyEndsWith type_name "[]"
  let tn := if is_array then pyRstrip type_name ['[', ']'] else type_name
  let idx := pyFind tn "("
  let tn2 :=
    if idx ≠ 0 ∧ pyEndsWith tn ")" then pySliceTo tn idx
    else if idx ≠ 0 ∧ pyStartsWith tn "time" then
      let endIdx := pyFind tn ")"
      if endIdx ≠ 1 then ⟨subDigitParens tn.data⟩ else tn
    else if pyStartsWith tn "interval" then "interval"
    else tn
  if is_array then tn2 ++ "[]" else tn2

/-- The trigger-properties record updated by `trigger_definition`; `tgtype`
is the raw bitmask, the remaining fields are the keys the function sets. -/
structure TrigData where
  tgtype : Nat
  fires : String
  is_row_trigger : Bool
  evnt_insert : Bool
  evnt_delete : Bool
  evnt_update : Bool
  evnt_truncate : Bool
deriving DecidableEq

/-- Embeds the module-level function `trigger_definition`; the bit
constants are exactly the `TRIGGER_TYPE_*` values of the source. -/
def trigger_definition (data : TrigData) : TrigData :=
  { data with
    fires :=
      if data.tgtype &&& (1 <<< 1) ≠ 0 then "BEFORE"
      else if data.tgtype &&& (1 <<< 6) ≠ 0 then "INSTEAD OF"
      else "AFTER"
    is_row_trigger := decide (data.tgtype &&& (1 <<< 0) ≠ 0)
    evnt_insert := decide (data.tgtype &&& (1 <<< 2) ≠ 0)
    evnt_delete := decide (data.tgtype &&& (1 <<< 3) ≠ 0)
    evnt_update := decide (data.tgtype &&& (1 <<< 4) ≠ 0)
    evnt_truncate := decide (data.tgtype &&& (1 <<< 5) ≠ 0) }

/-- One row of the rule-definition result set.  Dictionary keys that may
be missing (raising `KeyError` on access) are `Option`s. -/
structure RuleRow where
  definition : Option String
  ev_type : Option String
  is_instead : Option Bool
deriving DecidableEq

/-- The result-set wrapper passed to `parse_rule_definition`
(`res['rows']`). -/
structure RuleResult where
  rows : List RuleRow
deriving DecidableEq

/-- The fully decomposed rule row produced on the success path of
`parse_rule_definition`. -/
structure RuleParsed where
  definition : String
  ev_type : String
  is_instead : Bool
  event : String
  do_instead : Bool
  statements : String
  condition : String
deriving DecidableEq

/-- The event lookup table `{'1': 'SELECT', '2': 'UPDATE', '3': 'INSERT',
'4': 'DELETE'}`; `none` models the `KeyError` on any other key. -/
def evTable : String → Option String
  | "1" => some "SELECT"
  | "2" => some "UPDATE"
  | "3" => some "INSERT"
  | "4" => some "DELETE"
  | _ => none

/-- Embeds `parse_rule_definition`.  The three `re.search` calls of the
source belong to Python's regex library, an external interface: they are
passed in as total oracles returning the matched group (`none` models a
failed search, which the source tolerates by leaving the field empty).
Every exception site of the `try` block — indexing an empty row list,
reading a missing `definition`, `ev_type` or `is_instead` key, and the
event-table lookup — becomes an `Except.error` carrying the exception
text, which is what the source's `except` handler wraps into
`internal_server_error`. -/
def parse_rule_definition (searchConditionPart searchCondition searchStatement :
    String → Option String) (res : RuleResult) : Except String RuleParsed :=
  match res.rows with
  | [] => .error "list index out of range"
  | res_data :: _ =>
    match res_data.definition with
    | none => .error "KeyError: definition"
    | some data_def =>
      let condition :=
        match searchConditionPart data_def with
        | none => ""
        | some condition_part =>
          match searchCondition condition_part with
          | none => ""
          | some c =>
            if pyStartsWith c "(" ∧ pyEndsWith c ")" then pyInner c else c
      let statement :=
        match searchStatement data_def with
        | none => ""
        | some st =>
          if pyStartsWith st "(" ∧ pyEndsWith st ")" then pyInner st else st
      match res_data.ev_type with
      | none => .error "KeyError: ev_type"
      | some et =>
        match evTable et with
        | none => .error ("KeyError: " ++ et)
        | some ev =>
          match res_data.is_instead with
          | none => .error "KeyError: is_instead"
          | some inst =>
            .ok ⟨data_def, et, inst, ev, inst, statement, condition⟩

/-- A Python number as stored into a vacuum row's `value` field: either an
`int` or a `float` (floats are carried as the rational they denote). -/
inductive PyVal
  | int (n : Int)
  | float (q : ℚ)
deriving DecidableEq

/-- One vacuum-settings row (a result dictionary of
`vacuum_defaults.sql`, later overwritten with name/label/column_type). -/
structure VRow where
  name : String
  label : String
  column_type : String
  value : Option PyVal
deriving DecidableEq

/-- Association-list lookup (a Python `dict` read). -/
def alookup {α β : Type} [DecidableEq α] : List (α × β) → α → Option β
  | [], _ => none
  | (k, v) :: rest, a => if k = a then some v else alookup rest a

/-- Association-list store (a Python `dict` write, replacing the key). -/
def ainsert {α β : Type} [DecidableEq α] : List (α × β) → α → β → List (α × β)
  | [], a, b => [(a, b)]
  | (k, v) :: rest, a, b =>
    if k = a then (a, b) :: rest else (k, v) :: ainsert rest a b

/-- The process-wide cache `VacuumSettings.vacuum_settings`: a dictionary
from server id to a dictionary from setting type to the cached rows. -/
abbrev VacuumCache := List (Int × List (String × List VRow))

/-- Reads the cache at `(sid, setting_type)`. -/
def cacheLookup (c : VacuumCache) (sid : Int) (setting_type : String) :
    Option (List VRow) :=
  match alookup c sid with
  | none => none
  | some tc => alookup tc setting_type

/-- The query-and-store tail of `fetch_default_vacuum_settings` (entered
only on a cache miss).  External interfaces are oracles: `fields` stands
for the parsed `vacuum_fields.json` template (per setting type and raw
name the `(name, label, column_type)` triple) and `db` for
`conn.execute_dict` on the rendered SQL (`.error` models a false status,
which the source wraps into `internal_server_error`).  The third component
counts issued queries. -/
def fetchQuery (fields : String → String → String × String × String)
    (db : Except String (List VRow)) (cache : VacuumCache) (sid : Int)
    (setting_type : String) :
    Except String (List VRow) × VacuumCache × Nat :=
  match db with
  | .error msg => (.error msg, cache, 1)
  | .ok rows =>
    let rows2 := rows.map fun r =>
      let f := fields setting_type r.name
      { r with name := f.1, label := f.2.1, column_type := f.2.2 }
    let tc := (alookup cache sid).getD []
    (.ok rows2, ainsert cache sid (ainsert tc setting_type rows2), 1)

/-- Embeds `VacuumSettings.fetch_default_vacuum_settings` as an explicit
state transformer on the cache: returns the result, the updated cache and
the number of database queries issued. -/
def fetch_default_vacuum_settings (fields : String → String → String × String × String)
    (db : Except String (List VRow)) (cache : VacuumCache) (sid : Int)
    (setting_type : String) :
    Except String (List VRow) × VacuumCache × Nat :=
  match alookup cache sid with
  | some tc =>
    match alookup tc setting_type with
    | some rows => (.ok rows, cache, 0)
    | none => fetchQuery fields db cache sid setting_type
  | none => fetchQuery fields db (ainsert cache sid []) sid setting_type

/-- The per-row update of `parse_vacuum_data`: look the row's name up in
the observed-values mapping (prefixed with `toast_` for toast settings);
overwrite `value` with the observed number — `int(value)` when
`value % 1 == 0`, i.e. when the fractional part is zero, the float
otherwise — or pop the `value` key when the lookup misses. -/
def transformVacuumRow (result : String → Option ℚ) (type : String)
    (row : VRow) : VRow :=
  let row_name := if type = "toast" then "toast_" ++ row.name else row.name
  match result row_name with
  | some v => { row with value := some (if v.den = 1 then .int v.num else .float v) }
  | none => { row with value := none }

/-- Embeds `VacuumSettings.parse_vacuum_data`.  The source deep-copies the
list returned by `fetch_default_vacuum_settings` and mutates only the
copy; in the pure embedding that is the `List.map` over the fetched rows,
and the untouched cache is returned alongside.  `result` is the
observed-values dictionary, already passed through Python's `float`
conversion (absent keys and `None` values are both `none`).  An error
response from the fetch makes the source's subsequent iteration blow up;
it is propagated as the error here. -/
def parse_vacuum_data (fields : String → String → String × String × String)
    (db : Except String (List VRow)) (cache : VacuumCache) (sid : Int)
    (result : String → Option ℚ) (type : String) :
    Except String (List VRow) × VacuumCache :=
  let r := fetch_default_vacuum_settings fields db cache sid type
  match r.1 with
  | .error e => (.error e, r.2.1)
  | .ok rows => (.ok (rows.map (transformVacuumRow result type)), r.2.1)

/-! Auxiliary lemmas about the string and bit helpers. -/

theorem str_data_ext {s t : String} (h : s.data = t.data) : s = t := by
  cases s
  cases t
  exact congrArg String.mk (by simpa using h)

theorem str_data_append (s t : String) : (s ++ t).data = s.data ++ t.data := by
  cases s
  cases t
  rfl

theorem sapp_assoc (a b c : String) : a ++ b ++ c = a ++ (b ++ c) := by
  apply str_data_ext
  simp [str_data_append]

theorem sapp_empty (a : String) : a ++ "" = a := by
  apply str_data_ext
  simp [str_data_append]

theorem ne_empty_of_data_ne {s : String} (h : s.data ≠ []) : s ≠ "" := by
  intro e
  apply h
  rw [e]

theorem sapp_left_ne_empty {s : String} (t : String) (h : s ≠ "") : s ++ t ≠ "" := by
  apply ne_empty_of_data_ne
  rw [str_data_append]
  intro e
  rcases List.append_eq_nil.mp e with ⟨e1, _⟩
  exact h (str_data_ext (by simp [e1]))

theorem paren_append_ne_empty (s : String) : "(" ++ s ≠ "" := by
  apply ne_empty_of_data_ne
  rw [str_data_append]
  simp

theorem land_two_pow_ne_zero (n k : Nat) : n &&& (1 <<< k) ≠ 0 ↔ n.testBit k = true := by
  rw [Nat.shiftLeft_eq, one_mul, Nat.and_two_pow]
  cases h : n.testBit k <;> simp [h, (Nat.two_pow_pos k).ne']

theorem decide_land_eq_testBit (n k : Nat) :
    decide (n &&& (1 <<< k) ≠ 0) = n.testBit k := by
  cases h : n.testBit k with
  | false =>
    have hz : ¬ n &&& (1 <<< k) ≠ 0 := by
      intro hc
      have htrue := (land_two_pow_ne_zero n k).mp hc
      rw [h] at htrue
      exact Bool.false_ne_true htrue
    exact decide_eq_false hz
  | true => exact decide_eq_true ((land_two_pow_ne_zero n k).mpr h)

theorem alookup_ainsert_self {α β : Type} [DecidableEq α] (l : List (α × β))
    (a : α) (b : β) : alookup (ainsert l a b) a = some b := by
  induction l with
  | nil => simp [ainsert, alookup]
  | cons p rest ih =>
    by_cases h : p.1 = a <;> simp [ainsert, alookup, h, ih]

/-- Cache-hit behaviour of the embedded fetch, shared by the claims about
the vacuum-settings cache. -/
theorem fetch_hit_aux (fields : String → String → String × String × String)
    (db : Except String (List VRow)) (cache : VacuumCache) (sid : Int)
    (setting_type : String) (rows : List VRow)
    (h : cacheLookup cache sid setting_type = some rows) :
    fetch_default_vacuum_settings fields db cache sid setting_type =
      (Except.ok rows, cache, 0) := by
  cases h1 : alookup cache sid with
  | none => simp [cacheLookup, h1] at h
  | some tc =>
    cases h2 : alookup tc setting_type with
    | none => simp [cacheLookup, h1, h2] at h
    | some r =>
      have hr : r = rows := by
        simp [cacheLookup, h1, h2] at h
        exact h
      subst hr
      simp [fetch_default_vacuum_settings, h1, h2]

/-! Claim theorems. -/

/-- Claim C1 (evidence of the code bug): for schema `myschema` and raw
type name `"myschema".mytype`, the source's
`typname[len(schema) + 3]` (an index, with no slice colon) keeps only the
single character `m`, so `get_full_type` formats the base name `m` — not
`mytype` as the claim (and the function's own docstring, which says the
schema prefix is skipped from the typname) states. -/
theorem get_full_type_schema_strip_slip :
    get_full_type (some "myschema") "\"myschema\".mytype" false 0 (-1) =
      Except.ok "m" ∧
    check_schema_in_name "\"myschema\".mytype" "myschema" = Except.ok "m" ∧
    ("m" : String) ≠ "mytype" :=
  ⟨rfl, rfl, by decide⟩

/-- Claim C4: `trigger_definition` sets `fires` to BEFORE when bit 1 of
`tgtype` is set, otherwise INSTEAD OF when bit 6 is set, otherwise AFTER,
and sets the row/insert/delete/update/truncate flags to bits 0, 2, 3, 4
and 5; in particular the bitmask BEFORE|ROW|INSERT = 7 yields
fires BEFORE with a row trigger, insert set and delete clear. -/
theorem trigger_definition_decodes_bits :
    (∀ d : TrigData,
      (trigger_definition d).fires =
        (if d.tgtype.testBit 1 then "BEFORE"
         else if d.tgtype.testBit 6 then "INSTEAD OF" else "AFTER") ∧
      (trigger_definition d).is_row_trigger = d.tgtype.testBit 0 ∧
      (trigger_definition d).evnt_insert = d.tgtype.testBit 2 ∧
      (trigger_definition d).evnt_delete = d.tgtype.testBit 3 ∧
      (trigger_definition d).evnt_update = d.tgtype.testBit 4 ∧
      (trigger_definition d).evnt_truncate = d.tgtype.testBit 5) ∧
    ((trigger_definition ⟨7, "", false, false, false, false, false⟩).fires = "BEFORE" ∧
     (trigger_definition ⟨7, "", false, false, false, false, false⟩).is_row_trigger = true ∧
     (trigger_definition ⟨7, "", false, false, false, false, false⟩).evnt_insert = true ∧
     (trigger_definition ⟨7, "", false, false, false, false, false⟩).evnt_delete = false) := by
  constructor
  · intro d
    refine ⟨?_, ?_, ?_, ?_, ?_, ?_⟩
    · simp only [trigger_definition, land_two_pow_ne_zero]
    · simp only [trigger_definition]
      exact decide_land_eq_testBit _ _
    · simp only [trigger_definition]
      exact decide_land_eq_testBit _ _
    · simp only [trigger_definition]
      exact decide_land_eq_testBit _ _
    · simp only [trigger_definition]
      exact decide_land_eq_testBit _ _
    · simp only [trigger_definition]
      exact decide_land_eq_testBit _ _
  · exact ⟨by decide, by decide, by decide, by decide⟩

/-- Claim C5: for `interval` the decoded length is `typmod & 0xffff`,
clamped to the empty string when it exceeds 6 (so the decoration becomes
`()`), and rendered as the number otherwise; in particular typmod 9
produces a decoration with no digits, not `(9)`. -/
theorem check_typmod_interval_clamp :
    (∀ typmod : Int, pyAndFFFF typmod > 6 →
      check_typmod typmod "interval" = "()") ∧
    (∀ typmod : Int, ¬ pyAndFFFF typmod > 6 →
      check_typmod typmod "interval" = "(" ++ toString (pyAndFFFF typmod) ++ ")") ∧
    check_typmod 9 "interval" = "()" ∧
    (∀ c ∈ (check_typmod 9 "interval").data, ¬ c.isDigit) := by
  have step : ∀ t : Int, check_typmod t "interval" =
      (if ("(" ++ (if pyAndFFFF t > 6 then "" else toString (pyAndFFFF t))) ≠ "" then
        ("(" ++ (if pyAndFFFF t > 6 then "" else toString (pyAndFFFF t))) ++ ")"
      else ("(" ++ (if pyAndFFFF t > 6 then "" else toString (pyAndFFFF t)))) :=
    fun t => rfl
  refine ⟨?_, ?_, rfl, by decide⟩
  · intro t h
    rw [step t]
    simp only [if_pos h]
    rfl
  · intro t h
    rw [step t]
    simp only [if_neg h]
    rw [if_pos (paren_append_ne_empty _)]

/-- Witness for C5 at typmod 9 (clamped) and typmod 5 (rendered). -/
theorem check_typmod_interval_clamp_witness :
    pyAndFFFF 9 > 6 ∧ check_typmod 9 "interval" = "()" ∧
    check_typmod 5 "interval" = "(" ++ toString (pyAndFFFF 5) ++ ")" :=
  ⟨by decide, check_typmod_interval_clamp.1 9 (by decide),
    check_typmod_interval_clamp.2.1 5 (by decide)⟩

/-- Claim C10: for every argument, `get_length_precision` reports a
precision exactly when typeval is `P`, and a length exactly when typeval
is `P`, `L` or `D`; hence a precision is never reported without a length. -/
theorem get_length_precision_invariant :
    ∀ e : ElemId,
      ((get_length_precision e).2.1 = true ↔ (get_length_precision e).2.2 = "P") ∧
      ((get_length_precision e).1 = true ↔
        ((get_length_precision e).2.2 = "P" ∨ (get_length_precision e).2.2 = "L" ∨
         (get_length_precision e).2.2 = "D")) ∧
      ((get_length_precision e).2.1 = true → (get_length_precision e).1 = true) := by
  intro e
  simp only [get_length_precision]
  split_ifs <;> simp_all

/-- Claim C3: for base name `numeric` and typmod other than -1,
`get_full_type` renders the decoration `(p,s)` with
`p = (typmod - 4) >> 16` and `s = (typmod - 4) & 0xffff`; at the typmod
`(10 << 16) + 2 + 4 = 655366` with no array dimensions the result is
`numeric(10,2)`. -/
theorem get_full_type_numeric_packed :
    (∀ typmod : Int, typmod ≠ -1 →
      get_full_type none "numeric" false 0 typmod =
        Except.ok ("numeric" ++ "(" ++ toString (pyShr (typmod - 4) 16) ++ ","
          ++ toString (pyAndFFFF (typmod - 4)) ++ ")")) ∧
    get_full_type none "numeric" false 0 655366 = Except.ok "numeric(10,2)" := by
  constructor
  · intro t h
    have step : get_full_type none "numeric" false 0 t =
        Except.ok ("numeric" ++ (if t ≠ -1 then check_typmod t "numeric" else "") ++ "") :=
      rfl
    rw [step, if_pos h]
    have step2 : check_typmod t "numeric" =
        (if ("(" ++ toString (pyShr (t - 4) 16) ++ "," ++ toString (pyAndFFFF (t - 4))) ≠ "" then
          ("(" ++ toString (pyShr (t - 4) 16) ++ "," ++ toString (pyAndFFFF (t - 4))) ++ ")"
        else ("(" ++ toString (pyShr (t - 4) 16) ++ "," ++ toString (pyAndFFFF (t - 4)))) :=
      rfl
    rw [step2,
      if_pos (sapp_left_ne_empty _ (sapp_left_ne_empty _ (paren_append_ne_empty _)))]
    simp only [sapp_empty, sapp_assoc]
  · rfl

/-- Witness for C3 at typmod 655366. -/
theorem get_full_type_numeric_packed_witness :
    (655366 : Int) ≠ -1 ∧
    get_full_type none "numeric" false 0 655366 =
      Except.ok ("numeric" ++ "(" ++ toString (pyShr (655366 - 4) 16) ++ ","
        ++ toString (pyAndFFFF (655366 - 4)) ++ ")") :=
  ⟨by decide, get_full_type_numeric_packed.1 655366 (by decide)⟩

/-- Claim C8: for base name `timestamp with time zone` and typmod other
than -1, `get_full_type` interleaves the length digits before the
time-zone suffix — `timestamp(p) with time zone` followed by the array
suffix — not after the full type name. -/
theorem get_full_type_timestamp_tz_interleaves :
    (∀ (typmod numdims : Int), typmod ≠ -1 →
      get_full_type none "timestamp with time zone" false numdims typmod =
        Except.ok ("timestamp" ++ "(" ++ toString typmod ++ ")" ++ " with time zone" ++
          (if numdims > 0 then pyRepeat "[]" numdims.toNat else ""))) ∧
    get_full_type none "timestamp with time zone" false 0 7 =
      Except.ok "timestamp(7) with time zone" := by
  constructor
  · intro t nd h
    have step : get_full_type none "timestamp with time zone" false nd t =
        Except.ok ("timestamp" ++
          (if t ≠ -1 then check_typmod t "timestamp with time zone" else "") ++
          " with time zone" ++ (if nd > 0 then pyRepeat "[]" nd.toNat else "")) :=
      rfl
    rw [step, if_pos h]
    have step2 : check_typmod t "timestamp with time zone" =
        (if ("(" ++ toString t) ≠ "" then ("(" ++ toString t) ++ ")"
        else ("(" ++ toString t)) :=
      rfl
    rw [step2, if_pos (paren_append_ne_empty _)]
    simp only [sapp_assoc]
  · rfl

/-- Witness for C8 at typmod 7 and no array dimensions. -/
theorem get_full_type_timestamp_tz_witness :
    (7 : Int) ≠ -1 ∧
    get_full_type none "timestamp with time zone" false 0 7 =
      Except.ok ("timestamp" ++ "(" ++ toString (7 : Int) ++ ")" ++ " with time zone" ++
        (if (0 : Int) > 0 then pyRepeat "[]" (0 : Int).toNat else "")) :=
  ⟨by decide, get_full_type_timestamp_tz_interleaves.1 7 0 (by decide)⟩

theorem paren_isPrefixOf_data {l : List Char} (h : (['(']).isPrefixOf l = true) :
    ∃ cs, l = '(' :: cs := by
  cases l with
  | nil => simp [List.isPrefixOf] at h
  | cons c cs =>
    simp [List.isPrefixOf] at h
    exact ⟨cs, by rw [h]⟩

/-- Claim C9: `parse_type_name` treats an opening parenthesis at
position 0 as not found (Python truthiness of `find`): a non-array name
that starts with `(` and ends with `)` is returned unchanged, while the
same decoration at a positive position is stripped (the name is cut at
the parenthesis). -/
theorem parse_type_name_paren_position :
    (∀ s : String, pyEndsWith s "[]" = false → pyStartsWith s "(" = true →
      pyEndsWith s ")" = true → parse_type_name s = s) ∧
    (∀ s : String, pyEndsWith s "[]" = false → pyFind s "(" > 0 →
      pyEndsWith s ")" = true → parse_type_name s = pySliceTo s (pyFind s "(")) := by
  constructor
  · intro s h0 hs hB
    obtain ⟨cs, hd⟩ : ∃ cs, s.data = '(' :: cs := by
      apply paren_isPrefixOf_data
      simpa [pyStartsWith] using hs
    have hfind : pyFind s "(" = 0 := by
      simp only [pyFind]
      rw [hd]
      simp [findAux, List.isPrefixOf]
    have hintv : pyStartsWith s "interval" = false := by
      simp only [pyStartsWith]
      rw [hd]
      simp [List.isPrefixOf]
    simp [parse_type_name, h0, hfind, hintv]
  · intro s h0 hp hB
    have h1 : pyFind s "(" ≠ 0 := ne_of_gt hp
    simp [parse_type_name, h0, h1, hB]

/-- Witness for C9: `(weird)` is returned unchanged, while `bit(1)` is
cut at the parenthesis. -/
theorem parse_type_name_paren_position_witness :
    parse_type_name "(weird)" = "(weird)" ∧
    parse_type_name "bit(1)" = pySliceTo "bit(1)" (pyFind "bit(1)" "(") :=
  ⟨parse_type_name_paren_position.1 "(weird)" (by decide) (by decide) (by decide),
    parse_type_name_paren_position.2 "bit(1)" (by decide) (by decide) (by decide)⟩

/-- Claim C2: when the vacuum-settings cache already holds an entry for
`(sid, setting_type)`, the fetch returns that entry with the cache
unmodified and zero queries issued; and starting from a cache miss, two
successive fetches for the same pair issue exactly one query in total. -/
theorem fetch_default_vacuum_settings_memoizes :
    (∀ (fields : String → String → String × String × String)
      (db : Except String (List VRow)) (cache : VacuumCache) (sid : Int)
      (setting_type : String) (rows : List VRow),
      cacheLookup cache sid setting_type = some rows →
      fetch_default_vacuum_settings fields db cache sid setting_type =
        (Except.ok rows, cache, 0)) ∧
    (∀ (fields : String → String → String × String × String)
      (cache : VacuumCache) (sid : Int) (setting_type : String) (rows : List VRow),
      cacheLookup cache sid setting_type = none →
      (fetch_default_vacuum_settings fields (Except.ok rows) cache sid setting_type).2.2 +
        (fetch_default_vacuum_settings fields (Except.ok rows)
          (fetch_default_vacuum_settings fields (Except.ok rows) cache sid
            setting_type).2.1 sid setting_type).2.2 = 1) := by
  constructor
  · exact fetch_hit_aux
  · intro fields cache sid st rows h
    cases h1 : alookup cache sid with
    | none =>
      simp [fetch_default_vacuum_settings, h1, fetchQuery, alookup_ainsert_self,
        ainsert, alookup]
    | some tc =>
      have h2 : alookup tc st = none := by
        simp [cacheLookup, h1] at h
        exact h
      simp [fetch_default_vacuum_settings, h1, h2, fetchQuery, alookup_ainsert_self,
        ainsert, alookup]

/-- Witness for C2: a cache hit is returned with no query and no cache
change, and from the empty cache two fetches issue one query. -/
theorem fetch_default_vacuum_settings_memoizes_witness :
    cacheLookup [((1 : Int), [("table", ([] : List VRow))])] 1 "table" = some [] ∧
    fetch_default_vacuum_settings (fun _ _ => ("n", "l", "t")) (Except.ok [])
      [((1 : Int), [("table", ([] : List VRow))])] 1 "table" =
      (Except.ok [], [((1 : Int), [("table", ([] : List VRow))])], 0) ∧
    cacheLookup [] 1 "table" = none ∧
    (fetch_default_vacuum_settings (fun _ _ => ("n", "l", "t")) (Except.ok [])
        [] 1 "table").2.2 +
      (fetch_default_vacuum_settings (fun _ _ => ("n", "l", "t")) (Except.ok [])
        (fetch_default_vacuum_settings (fun _ _ => ("n", "l", "t")) (Except.ok [])
          [] 1 "table").2.1 1 "table").2.2 = 1 :=
  ⟨rfl, fetch_default_vacuum_settings_memoizes.1 _ _ _ _ _ _ rfl, rfl,
    fetch_default_vacuum_settings_memoizes.2 _ _ _ _ _ rfl⟩

/-- Claim C6: whenever one of the exception sites of
`parse_rule_definition` fires — the row list is empty, or the first row
lacks the definition, ev_type or is_instead key, or ev_type is outside
the 1..4 event table — the function returns the error result (the
exception text the source hands to `internal_server_error`) and never a
partial field decomposition, for every behaviour of the regex oracles. -/
theorem parse_rule_definition_degrades_on_error :
    ∀ (searchConditionPart searchCondition searchStatement : String → Option String)
      (res : RuleResult),
      (res.rows = [] ∨
        ∃ r rest, res.rows = r :: rest ∧
          (r.definition = none ∨ r.ev_type = none ∨
            (∃ et, r.ev_type = some et ∧ evTable et = none) ∨
            r.is_instead = none)) →
      (∃ msg, parse_rule_definition searchConditionPart searchCondition
        searchStatement res = Except.error msg) ∧
      ∀ d, parse_rule_definition searchConditionPart searchCondition
        searchStatement res ≠ Except.ok d := by
  intro s1 s2 s3 res hyp
  have herr : ∃ msg, parse_rule_definition s1 s2 s3 res = Except.error msg := by
    rcases hyp with hnil | ⟨r, rest, hcons, hfield⟩
    · exact ⟨"list index out of range", by simp [parse_rule_definition, hnil]⟩
    · rcases hfield with hdef | hev | ⟨et, het, htab⟩ | hinst
      · exact ⟨"KeyError: definition", by simp [parse_rule_definition, hcons, hdef]⟩
      · cases hd : r.definition with
        | none => exact ⟨"KeyError: definition", by simp [parse_rule_definition, hcons, hd]⟩
        | some dd =>
          exact ⟨"KeyError: ev_type", by simp [parse_rule_definition, hcons, hd, hev]⟩
      · cases hd : r.definition with
        | none => exact ⟨"KeyError: definition", by simp [parse_rule_definition, hcons, hd]⟩
        | some dd =>
          exact ⟨"KeyError: " ++ et,
            by simp [parse_rule_definition, hcons, hd, het, htab]⟩
      · cases hd : r.definition with
        | none => exact ⟨"KeyError: definition", by simp [parse_rule_definition, hcons, hd]⟩
        | some dd =>
          cases he : r.ev_type with
          | none => exact ⟨"KeyError: ev_type", by simp [parse_rule_definition, hcons, hd, he]⟩
          | some et2 =>
            cases ht : evTable et2 with
            | none =>
              exact ⟨"KeyError: " ++ et2,
                by simp [parse_rule_definition, hcons, hd, he, ht]⟩
            | some ev =>
              exact ⟨"KeyError: is_instead",
                by simp [parse_rule_definition, hcons, hd, he, ht, hinst]⟩
  refine ⟨herr, ?_⟩
  rcases herr with ⟨msg, e⟩
  intro d hok
  rw [e] at hok
  exact Except.noConfusion hok

/-- Witness for C6: an empty result set yields the error result. -/
theorem parse_rule_definition_degrades_witness :
    (∃ msg, parse_rule_definition (fun _ => none) (fun _ => none) (fun _ => none)
      ⟨[]⟩ = Except.error msg) ∧
    ∀ d, parse_rule_definition (fun _ => none) (fun _ => none) (fun _ => none)
      ⟨[]⟩ ≠ Except.ok d :=
  parse_rule_definition_degrades_on_error _ _ _ ⟨[]⟩ (Or.inl rfl)

/-- Claim C7: on a cache hit, `parse_vacuum_data` returns the per-row
update mapped over a copy of the cached default rows and leaves the cache
itself unchanged; per row the `value` field becomes the observed value —
an integer exactly when its fractional part is zero (denominator 1), the
float otherwise — when the (possibly `toast_`-prefixed) name is present,
and is removed when it is absent. -/
theorem parse_vacuum_data_deep_copy :
    (∀ (fields : String → String → String × String × String)
      (db : Except String (List VRow)) (cache : VacuumCache) (sid : Int)
      (result : String → Option ℚ) (type : String) (rows : List VRow),
      cacheLookup cache sid type = some rows →
      parse_vacuum_data fields db cache sid result type =
        (Except.ok (rows.map (transformVacuumRow result type)), cache)) ∧
    (∀ (result : String → Option ℚ) (type : String) (row : VRow),
      result (if type = "toast" then "toast_" ++ row.name else row.name) = none →
      (transformVacuumRow result type row).value = none ∧
      (transformVacuumRow result type row).name = row.name) ∧
    (∀ (result : String → Option ℚ) (type : String) (row : VRow) (v : ℚ),
      result (if type = "toast" then "toast_" ++ row.name else row.name) = some v →
      (transformVacuumRow result type row).value =
        some (if v.den = 1 then PyVal.int v.num else PyVal.float v)) := by
  refine ⟨?_, ?_, ?_⟩
  · intro fields db cache sid result type rows h
    simp [parse_vacuum_data, fetch_hit_aux fields db cache sid type rows h]
  · intro result type row h
    simp [transformVacuumRow, h]
  · intro result type row v h
    simp [transformVacuumRow, h]

/-- Witness for C7: a one-row cache hit with one observed integral value,
one observed non-integral value and one absent value. -/
theorem parse_vacuum_data_deep_copy_witness :
    parse_vacuum_data (fun _ _ => ("n", "l", "t")) (Except.ok [])
      [((1 : Int), [("table", [VRow.mk "threshold" "lbl" "integer" none])])] 1
      (fun _ => some (5 : ℚ)) "table" =
      (Except.ok ([VRow.mk "threshold" "lbl" "integer" none].map
        (transformVacuumRow (fun _ => some (5 : ℚ)) "table")),
       [((1 : Int), [("table", [VRow.mk "threshold" "lbl" "integer" none])])]) ∧
    (transformVacuumRow (fun _ => none) "toast"
      (VRow.mk "threshold" "lbl" "integer" (some (PyVal.int 3)))).value = none ∧
    (transformVacuumRow (fun _ => some ((5 : ℚ) / 2)) "table"
      (VRow.mk "threshold" "lbl" "integer" none)).value =
      some (if ((5 : ℚ) / 2).den = 1 then PyVal.int ((5 : ℚ) / 2).num
        else PyVal.float ((5 : ℚ) / 2)) :=
  ⟨parse_vacuum_data_deep_copy.1 _ _ _ _ _ _ _ rfl,
    (parse_vacuum_data_deep_copy.2.1 _ "toast" _ rfl).1,
    parse_vacuum_data_deep_copy.2.2 _ "table" _ _ rfl⟩

end PgUtils
